import Mathlib

/-!
Shallow embedding of the spark client SDK (spark/client.py, spark/common/utils.py,
spark/common/types/Record.py) and verification of its specification claims.

Python dictionaries are embedded as association lists in insertion order with
unique keys; Python values that flow through json.dumps are embedded as the
inductive type Json; machine-level details (MD5, UTF-8, JSON serialization)
are embedded as executable functions over Nat lists.
-/

namespace Spark

/-- Embedding of the Python values stored in the inputs / outputs / feedbacks
dictionaries (json-serializable values). Objects keep insertion order. -/
inductive Json where
  | null
  | bool (b : Bool)
  | num (n : Int)
  | str (s : String)
  | arr (elems : List Json)
  | obj (fields : List (String × Json))

/-- Python truthiness of a json-like value, as used by the source's
idiom: if inputs.get(ignored_input): inputs.pop(ignored_input). -/
def Json.pyTruthy : Json → Bool
  | .null => false
  | .bool b => b
  | .num n => n != 0
  | .str s => s != ""
  | .arr xs => !xs.isEmpty
  | .obj fs => !fs.isEmpty

/-- A value conforming to the source's DataRow TypedDict: a dict with a
string field named value and a type field drawn from the declared Literal. -/
def isDataRow : Json → Bool
  | .obj fs =>
      (match fs.lookup ("value") with
        | some (.str _) => true
        | _ => false)
      &&
      (match fs.lookup ("type") with
        | some (.str t) => [("string" : String), "number", "categorical", "timestamp", "url"].contains t
        | _ => false)
  | _ => false

/-- Code-point lexicographic comparison of char lists, matching Python's
ordering on str used by sorted() and json.dumps(sort_keys=True). -/
def charListLe : List Char → List Char → Bool
  | x :: xs, y :: ys =>
      if x < y then true
      else if y < x then false
      else charListLe xs ys
  | _ :: _, [] => false
  | [], _ => true

/-- Python string less-or-equal. -/
def strLe (a b : String) : Bool := charListLe a.data b.data

/-- Insert one key/value pair into a key-sorted list of pairs. -/
def insertPair (p : String × α) : List (String × α) → List (String × α)
  | [] => [p]
  | q :: qs => if strLe p.1 q.1 then p :: q :: qs else q :: insertPair p qs

/-- Sort key/value pairs by key in Python string order. -/
def sortPairs (l : List (String × α)) : List (String × α) :=
  l.foldr insertPair []

/-- The pairwise relation maintained by insertion sort on keys. -/
def keyLeP (p q : String × α) : Prop := strLe p.1 q.1 = true

/-- Strict key order: used to derive uniqueness of the sorted form when the
keys carry no duplicates. -/
def keyLtP (p q : String × α) : Prop := strLe p.1 q.1 = true ∧ p.1 ≠ q.1

/-- Lowercase hexadecimal digits. -/
def hexDigits : List Char := ("0123456789abcdef").data

/-- Lowercase hex digit of n mod 16. -/
def hexDigit (n : Nat) : Char := hexDigits.getD (n % 16) '0'

/-- Four lowercase hex digits, as in Python's json \uXXXX escapes. -/
def hex4 (n : Nat) : String :=
  String.mk [hexDigit (n / 4096), hexDigit (n / 256), hexDigit (n / 16), hexDigit n]

/-- Escaping of one character inside a JSON string, matching json.dumps
defaults (ensure_ascii=True: everything outside printable ASCII becomes a
\uXXXX escape, astral characters become surrogate pairs). -/
def jsonEscapeChar (c : Char) : String :=
  if c = '\\' then "\\\\"
  else if c = '"' then "\\\""
  else if c = '\n' then "\\n"
  else if c = '\t' then "\\t"
  else if c = '\r' then "\\r"
  else if c.toNat = 8 then "\\b"
  else if c.toNat = 12 then "\\f"
  else if 32 ≤ c.toNat ∧ c.toNat ≤ 126 then String.singleton c
  else if c.toNat < 65536 then "\\u" ++ hex4 c.toNat
  else
    "\\u" ++ hex4 (55296 + (c.toNat - 65536) / 1024) ++
      "\\u" ++ hex4 (56320 + (c.toNat - 65536) % 1024)

/-- Escape a whole string body. -/
def jsonEscape (s : String) : String := String.join (s.data.map jsonEscapeChar)

/-- Python's json item separator (the default is a comma and one space). -/
def commaSep (l : List String) : String := String.intercalate (", ") l

/-- Render one already-serialized object item as key-colon-space-value. -/
def renderItem (kv : String × String) : String :=
  "\"" ++ jsonEscape kv.1 ++ "\": " ++ kv.2

mutual

/-- Embedding of json.dumps: objects are rendered in insertion order, or in
key-sorted order when the sort flag (sort_keys=True) is set; the key/value
separator is a colon and one space. Field values are serialized first and
the rendered items are then ordered by key, which produces the same string
as serializing the key-sorted fields, since serialization keeps keys. -/
def pyDumps (sort : Bool) : Json → String
  | .null => "null"
  | .bool true => "true"
  | .bool false => "false"
  | .num n => toString n
  | .str s => "\"" ++ jsonEscape s ++ "\""
  | .arr xs => "[" ++ commaSep (dumpElems sort xs) ++ "]"
  | .obj fs =>
      "\x7b" ++
        commaSep (((if sort then sortPairs (dumpFields sort fs) else dumpFields sort fs)).map
          renderItem) ++ "\x7d"

def dumpFields (sort : Bool) : List (String × Json) → List (String × String)
  | [] => []
  | (k, v) :: rest => (k, pyDumps sort v) :: dumpFields sort rest

def dumpElems (sort : Bool) : List Json → List String
  | [] => []
  | x :: xs => pyDumps sort x :: dumpElems sort xs

end

/-- Addition modulo 2^32. -/
def add32 (a b : Nat) : Nat := (a + b) % 4294967296

/-- Bitwise complement within 32 bits (operands are kept below 2^32). -/
def not32 (x : Nat) : Nat := 4294967295 - x

/-- Left rotation of a 32-bit word. -/
def rotl32 (x s : Nat) : Nat :=
  ((x * 2 ^ (s % 32)) % 4294967296) + (x % 4294967296) / 2 ^ (32 - s % 32)

/-- MD5 round functions. -/
def mdF (b c d : Nat) : Nat := (b &&& c) ||| (not32 b &&& d)

def mdG (b c d : Nat) : Nat := (d &&& b) ||| (not32 d &&& c)

def mdH (b c d : Nat) : Nat := b ^^^ c ^^^ d

def mdI (b c d : Nat) : Nat := c ^^^ (b ||| not32 d)

/-- MD5 sine-derived constant table. -/
def mdK : List Nat :=
  [0xd76aa478, 0xe8c7b756, 0x242070db, 0xc1bdceee,
   0xf57c0faf, 0x4787c62a, 0xa8304613, 0xfd469501,
   0x698098d8, 0x8b44f7af, 0xffff5bb1, 0x895cd7be,
   0x6b901122, 0xfd987193, 0xa679438e, 0x49b40821,
   0xf61e2562, 0xc040b340, 0x265e5a51, 0xe9b6c7aa,
   0xd62f105d, 0x02441453, 0xd8a1e681, 0xe7d3fbc8,
   0x21e1cde6, 0xc33707d6, 0xf4d50d87, 0x455a14ed,
   0xa9e3e905, 0xfcefa3f8, 0x676f02d9, 0x8d2a4c8a,
   0xfffa3942, 0x8771f681, 0x6d9d6122, 0xfde5380c,
   0xa4beea44, 0x4bdecfa9, 0xf6bb4b60, 0xbebfbc70,
   0x289b7ec6, 0xeaa127fa, 0xd4ef3085, 0x04881d05,
   0xd9d4d039, 0xe6db99e5, 0x1fa27cf8, 0xc4ac5665,
   0xf4292244, 0x432aff97, 0xab9423a7, 0xfc93a039,
   0x655b59c3, 0x8f0ccc92, 0xffeff47d, 0x85845dd1,
   0x6fa87e4f, 0xfe2ce6e0, 0xa3014314, 0x4e0811a1,
   0xf7537e82, 0xbd3af235, 0x2ad7d2bb, 0xeb86d391]

/-- MD5 per-round left-rotation amounts. -/
def mdS : List Nat :=
  [7, 12, 17, 22, 7, 12, 17, 22, 7, 12, 17, 22, 7, 12, 17, 22,
   5, 9, 14, 20, 5, 9, 14, 20, 5, 9, 14, 20, 5, 9, 14, 20,
   4, 11, 16, 23, 4, 11, 16, 23, 4, 11, 16, 23, 4, 11, 16, 23,
   6, 10, 15, 21, 6, 10, 15, 21, 6, 10, 15, 21, 6, 10, 15, 21]

/-- One MD5 round: round index i in 0..63, message block m of 16 words. -/
def md5Round (m : List Nat) (st : Nat × Nat × Nat × Nat) (i : Nat) : Nat × Nat × Nat × Nat :=
  let a := st.1
  let b := st.2.1
  let c := st.2.2.1
  let d := st.2.2.2
  let f := if i < 16 then mdF b c d
           else if i < 32 then mdG b c d
           else if i < 48 then mdH b c d
           else mdI b c d
  let g := if i < 16 then i
           else if i < 32 then (5 * i + 1) % 16
           else if i < 48 then (3 * i + 5) % 16
           else (7 * i) % 16
  let rotated := rotl32 (add32 (add32 (add32 a f) (mdK.getD i 0)) (m.getD g 0)) (mdS.getD i 0)
  (d, add32 b rotated, b, c)

/-- Process one 512-bit block (16 little-endian words). -/
def md5Block (st : Nat × Nat × Nat × Nat) (m : List Nat) : Nat × Nat × Nat × Nat :=
  let r := (List.range 64).foldl (md5Round m) st
  (add32 st.1 r.1, add32 st.2.1 r.2.1, add32 st.2.2.1 r.2.2.1, add32 st.2.2.2 r.2.2.2)

/-- Fold the block function over a word stream, 16 words at a time. -/
def md5Blocks (st : Nat × Nat × Nat × Nat) : List Nat → Nat × Nat × Nat × Nat
  | m0 :: m1 :: m2 :: m3 :: m4 :: m5 :: m6 :: m7 ::
    m8 :: m9 :: m10 :: m11 :: m12 :: m13 :: m14 :: m15 :: rest =>
      md5Blocks (md5Block st [m0, m1, m2, m3, m4, m5, m6, m7, m8, m9, m10, m11, m12, m13, m14, m15]) rest
  | _ => st

/-- Group bytes into 32-bit little-endian words. -/
def leWords : List Nat → List Nat
  | b0 :: b1 :: b2 :: b3 :: rest =>
      (b0 + 256 * b1 + 65536 * b2 + 16777216 * b3) :: leWords rest
  | _ => []

/-- Little-endian byte decomposition of a 32-bit word. -/
def le4 (x : Nat) : List Nat :=
  [x % 256, x / 256 % 256, x / 65536 % 256, x / 16777216 % 256]

/-- Little-endian byte decomposition of a 64-bit length field. -/
def le8 (x : Nat) : List Nat :=
  [x % 256, x / 256 % 256, x / 65536 % 256, x / 16777216 % 256,
   x / 4294967296 % 256, x / 1099511627776 % 256,
   x / 281474976710656 % 256, x / 72057594037927936 % 256]

/-- MD5 padding: a 0x80 byte, zeros to 56 mod 64, then the bit length. -/
def md5Pad (msg : List Nat) : List Nat :=
  let n := msg.length
  msg ++ [128] ++ List.replicate ((119 - n % 64) % 64) 0 ++ le8 ((8 * n) % 18446744073709551616)

/-- The 16-byte MD5 digest of a byte list. -/
def md5Bytes (msg : List Nat) : List Nat :=
  let r := md5Blocks (0x67452301, 0xefcdab89, 0x98badcfe, 0x10325476) (leWords (md5Pad msg))
  le4 r.1 ++ le4 r.2.1 ++ le4 r.2.2.1 ++ le4 r.2.2.2

/-- Lowercase hex rendering of a byte list, two digits per byte. -/
def hexOfBytes : List Nat → List Char
  | [] => []
  | b :: bs => hexDigit (b / 16) :: hexDigit b :: hexOfBytes bs

/-- hashlib.md5(...).hexdigest(): lowercase 32-character hex digest. -/
def md5Hex (msg : List Nat) : String := String.mk (hexOfBytes (md5Bytes msg))

/-- UTF-8 encoding of one character (str.encode applied per code point). -/
def utf8Char (c : Char) : List Nat :=
  let v := c.toNat
  if v < 128 then [v]
  else if v < 2048 then [192 + v / 64, 128 + v % 64]
  else if v < 65536 then [224 + v / 4096, 128 + v / 64 % 64, 128 + v % 64]
  else [240 + v / 262144, 128 + v / 4096 % 64, 128 + v / 64 % 64, 128 + v % 64]

/-- Concatenation of byte fragments. -/
def flatBytes : List (List Nat) → List Nat
  | [] => []
  | x :: xs => x ++ flatBytes xs

/-- UTF-8 encoding of a string, as Python's str.encode with encoding utf-8. -/
def utf8 (s : String) : List Nat := flatBytes (s.data.map utf8Char)

/-! ## Embedding of the Record data shape (spark/common/types/Record.py) -/

/-- Embedding of the Record dataclass. Dict-valued fields are association
lists in insertion order; feedback_id is Optional[str]; timestamp is an int
(the dataclass default is the non-zero current epoch-millisecond time). -/
structure Record where
  inputs : List (String × Json) := []
  outputs : List (String × Json) := []
  feedback_keys : List String := []
  feedback_id : Option String := none
  feedbacks : List (String × Json) := []
  ignore_inputs : List String := []
  timestamp : Nat := 1
  version : String := "1"
  application_env : String := "dev"

/-- The exceptions the client can raise, one constructor per distinct raise
site (plus Python's own AttributeError and KeyError, which escape from
attribute access on non-Record arguments and from the dict comprehension in
compute_feedback_id respectively). -/
inductive SparkError where
  | invalidSampleRate
  | attributeError (typeName attrName : String)
  | invalidRecordType (typeName : String)
  | conflictingIdentifier
  | missingIdentifierSource
  | keyError (key : String)
  | emptyRecord
  | predictionWithoutInputs
  | predictionWithoutOutputs
deriving DecidableEq

/-! ## compute_feedback_id and the ignore_inputs stripping -/

/-- Python dict insertion: replace the value in place if the key exists,
append otherwise. -/
def dictInsert (k : String) (v : α) : List (String × α) → List (String × α)
  | [] => [(k, v)]
  | (k', v') :: rest => if k = k' then (k', v) :: rest else (k', v') :: dictInsert k v rest

/-- The dict comprehension in compute_feedback_id, with an explicit
accumulator: looks each key up in inputs, failing with the first missing
key exactly as the Python comprehension raises KeyError. -/
def restrictGo (inputs : List (String × Json)) (acc : List (String × Json)) :
    List String → Except String (List (String × Json))
  | [] => .ok acc
  | k :: ks =>
      match inputs.lookup k with
      | some v => restrictGo inputs (dictInsert k v acc) ks
      | none => .error k

/-- Embedding of Spark.compute_feedback_id: build the sub-dict of inputs on
feedback_keys (all input keys when feedback_keys is falsy), serialize it
with json.dumps(sort_keys=True), hash with MD5, and return the lowercase
hex digest. The error carries the missing key of a raised KeyError. -/
def compute_feedback_id (inputs : List (String × Json)) (feedback_keys : List String) :
    Except String String :=
  let keys := if feedback_keys.isEmpty then inputs.map Prod.fst else feedback_keys
  match restrictGo inputs [] keys with
  | .ok d => .ok (md5Hex (utf8 (pyDumps true (Json.obj d))))
  | .error k => .error k

/-- One step of the ignore_inputs loop: if inputs.get(k) is truthy, pop k. -/
def popIgnored (inputs : List (String × Json)) (k : String) : List (String × Json) :=
  match inputs.lookup k with
  | some v => if v.pyTruthy then inputs.filter (fun p => !(p.1 == k)) else inputs
  | none => inputs

/-- The ignore_inputs stripping loop of log_record / log_prediction_attribute. -/
def stripIgnored (ignore : List String) (inputs : List (String × Json)) :
    List (String × Json) :=
  ignore.foldl popIgnored inputs

/-! ## Attribute bags and events -/

/-- The attribute bag set on a prediction span (lines 72-86 of client.py);
the constant _type tag is carried by the Event constructor. -/
structure PredictionAttrs where
  application_id : String
  application_name : String
  application_env : String
  inputs : String
  outputs : String
  feedback_keys : List String
  ignore_inputs : List String
  feedback_id : String
  timestamp : Nat
  version : String
deriving DecidableEq

/-- The attribute bag set on a feedback span (lines 90-100 of client.py). -/
structure FeedbackAttrs where
  application_id : String
  feedback_id : String
  feedback_version : String
  feedback_content : String
  feedback_timestamp : Nat
  user_metadata : String
deriving DecidableEq

/-- An emitted span, tagged by its _type. -/
inductive Event where
  | prediction (attrs : PredictionAttrs)
  | feedback (attrs : FeedbackAttrs)
deriving DecidableEq

/-- Embedding of Spark.log_prediction_attribute. now stands for
get_current_timestamp(); a falsy (zero) timestamp is replaced by it. An
empty feedback_id is falsy, so it is recomputed from the stripped inputs.
The runtime type check on inputs (line 49) is a tautology here, since the
embedding types inputs as a dict; note the feedback_keys default is taken
from the inputs before this function's own ignore stripping runs. -/
def log_prediction_attribute (app : String) (now : Nat)
    (inputs outputs : List (String × Json)) (feedback_keys ignore_inputs : List String)
    (feedback_id : String) (timestamp : Nat) (version application_env : String) :
    Except SparkError PredictionAttrs :=
  if inputs.isEmpty then .error .predictionWithoutInputs
  else if outputs.isEmpty then .error .predictionWithoutOutputs
  else
    let fk := if feedback_keys.isEmpty then inputs.map Prod.fst else feedback_keys
    let inputs2 := stripIgnored ignore_inputs inputs
    match (if feedback_id = "" then compute_feedback_id inputs2 fk else .ok feedback_id) with
    | .error k => .error (.keyError k)
    | .ok fid =>
        .ok { application_id := app, application_name := app,
              application_env := application_env,
              inputs := pyDumps false (Json.obj inputs2),
              outputs := pyDumps false (Json.obj outputs),
              feedback_keys := fk, ignore_inputs := ignore_inputs,
              feedback_id := fid,
              timestamp := if timestamp = 0 then now else timestamp,
              version := version }

/-- Embedding of Spark.log_feedback_attribute (it cannot fail). -/
def log_feedback_attribute (app : String) (feedback_id : String)
    (feedbacks : List (String × Json)) (timestamp : Nat) : FeedbackAttrs :=
  { application_id := app, feedback_id := feedback_id, feedback_version := "1",
    feedback_content := pyDumps false (Json.obj feedbacks),
    feedback_timestamp := timestamp,
    user_metadata := pyDumps false (Json.obj [("application", Json.str app)]) }

/-! ## The per-record pipeline shared by log_record and log_records -/

/-- Truthiness of an Optional[str]: None and the empty string are falsy. -/
def optStrTruthy : Option String → Bool
  | none => false
  | some s => s != ""

/-- The identifier resolution step (lines 128-134 of client.py): any string
value, even empty, passes the isinstance check and is kept verbatim;
otherwise the identifier is computed when the stripped inputs are
non-empty, and the call fails without inputs. -/
def resolveFeedbackId (feedback_id : Option String) (inputs : List (String × Json))
    (feedback_keys : List String) : Except SparkError String :=
  match feedback_id with
  | some s => .ok s
  | none =>
      if inputs.isEmpty then .error .missingIdentifierSource
      else
        match compute_feedback_id inputs feedback_keys with
        | .ok h => .ok h
        | .error k => .error (.keyError k)

/-- Which branch of the prediction/feedback dispatch was taken, with the
fully built attribute bags. -/
inductive BranchOutcome where
  | predAndFeedback (id : String) (pa : PredictionAttrs) (fa : FeedbackAttrs)
  | predOnly (id : String) (pa : PredictionAttrs)
  | feedbackOnly (fa : FeedbackAttrs)
deriving DecidableEq

/-- The record-processing body shared verbatim by log_record (lines 110-182)
and the log_records loop (lines 197-265): conflict check, ignore stripping,
presence flags, identifier resolution, and the four-way branch. -/
def classifyRecord (app : String) (now : Nat) (r : Record) :
    Except SparkError BranchOutcome :=
  if !r.feedback_keys.isEmpty && optStrTruthy r.feedback_id then
    .error .conflictingIdentifier
  else
    let inputs := stripIgnored r.ignore_inputs r.inputs
    let input_exists := !inputs.isEmpty
    let output_exists := !r.outputs.isEmpty
    let pred_exists := input_exists && output_exists
    let feedback_exists := !r.feedbacks.isEmpty
    match resolveFeedbackId r.feedback_id inputs r.feedback_keys with
    | .error e => .error e
    | .ok fid =>
        if pred_exists && feedback_exists then
          match log_prediction_attribute app now inputs r.outputs r.feedback_keys
              r.ignore_inputs fid r.timestamp r.version r.application_env with
          | .error e => .error e
          | .ok pa =>
              .ok (.predAndFeedback fid pa (log_feedback_attribute app fid r.feedbacks r.timestamp))
        else if pred_exists then
          match log_prediction_attribute app now inputs r.outputs r.feedback_keys
              r.ignore_inputs fid r.timestamp r.version r.application_env with
          | .error e => .error e
          | .ok pa => .ok (.predOnly fid pa)
        else if feedback_exists then
          .ok (.feedbackOnly (log_feedback_attribute app fid r.feedbacks r.timestamp))
        else .error .emptyRecord

/-- The argument of a logging call: a Record — or any object exposing every
attribute the pipeline reads, which the duck-typed code cannot distinguish
from one — or another Python object, abstracted by its class name and by
the two attributes read before the type check (lines 107-108): none stands
for a missing attribute, and a present value is modeled at the shape the
dataclass declares for it. A nonRecord object exposes no attribute beyond
those two, in particular no inputs. -/
inductive LogArg where
  | record (r : Record)
  | nonRecord (typeName : String) (fkAttr : Option (List String))
      (fidAttr : Option (Option String))

/-- Lines 107-110, 111, 114 and 185-186: the attribute reads come first, so
an object without them raises AttributeError; with both attributes present
the source compares type(record).__name__ against the string Record — a
different name reaches the final else and raises the expected-Record
exception, while an object of a non-dataclass class that happens to be
named Record slips past the check and proceeds duck-typed: the conflict
check of line 111 runs on its two attributes, and then the record.inputs
read of line 114 raises AttributeError, since a nonRecord has no inputs
attribute (an object that also exposed every further attribute the code
reads would behave exactly as a Record and is covered by LogArg.record). -/
def processArg (app : String) (now : Nat) : LogArg → Except SparkError BranchOutcome
  | .record r => classifyRecord app now r
  | .nonRecord tn fkAttr fidAttr =>
      match fkAttr with
      | none => .error (.attributeError tn ("feedback_keys"))
      | some fk =>
          match fidAttr with
          | none => .error (.attributeError tn ("feedback_id"))
          | some fid =>
              if tn = ("Record") then
                if !fk.isEmpty && optStrTruthy fid then .error .conflictingIdentifier
                else .error (.attributeError tn ("inputs"))
              else .error (.invalidRecordType tn)

/-! ## The public entry points -/

/-- Result of one log_record call: the spans emitted, the value returned to
the caller, and whether the span provider was shut down. -/
structure LogOutcome where
  events : List Event := []
  returned : Option String := none
  shutdown : Bool := false
deriving DecidableEq

/-- How log_record turns the taken branch into emissions, return value and
shutdown: both prediction branches return the identifier early (lines 156,
171) and so skip the provider.shutdown() on line 184, which only the
feedback-only fall-through reaches; that branch returns None. -/
def interpretBranch : BranchOutcome → LogOutcome
  | .predAndFeedback fid pa fa =>
      { events := [.prediction pa, .feedback fa], returned := some fid }
  | .predOnly fid pa => { events := [.prediction pa], returned := some fid }
  | .feedbackOnly fa => { events := [.feedback fa], shutdown := true }

/-- Embedding of Spark.log_record. draw is the value of the single
random.random() call; the sampling gate returns silently (no events, no
error) when the draw exceeds sample_rate, and check_sample_rate asserts
sample_rate lies in the closed unit interval first. -/
def log_record (app : String) (now : Nat) (draw : ℚ) (arg : LogArg)
    (sample_rate : ℚ) : Except SparkError LogOutcome :=
  if sample_rate ≤ 1 ∧ 0 ≤ sample_rate then
    if draw > sample_rate then .ok {}
    else
      match processArg app now arg with
      | .error e => .error e
      | .ok b => .ok (interpretBranch b)
  else .error .invalidSampleRate

/-- Result of one log_records call: the loop returns nothing, so there is
only the list of spans emitted before a failure, the failure if any, and a
shutdown flag that the batch loop never sets (it has no provider.shutdown()
call). -/
structure BatchOutcome where
  events : List Event := []
  error : Option SparkError := none
  shutdown : Bool := false
deriving DecidableEq

/-- The loop of log_records: each record runs the same pipeline; events of
successful records accumulate in order; the first failure propagates
immediately, aborting the rest of the batch. -/
def log_recordsGo (app : String) (now : Nat) (acc : List Event) :
    List LogArg → BatchOutcome
  | [] => { events := acc }
  | a :: rest =>
      match processArg app now a with
      | .ok b => log_recordsGo app now (acc ++ (interpretBranch b).events) rest
      | .error e => { events := acc, error := some e }

/-- Embedding of Spark.log_records: one sampling gate for the whole call,
then the per-record loop. No identifiers are returned. -/
def log_records (app : String) (now : Nat) (draw : ℚ) (args : List LogArg)
    (sample_rate : ℚ) : BatchOutcome :=
  if sample_rate ≤ 1 ∧ 0 ≤ sample_rate then
    if draw > sample_rate then {}
    else log_recordsGo app now [] args
  else { error := some .invalidSampleRate }

/-- Whether an Except value is a success. -/
def isOkE : Except ε α → Bool
  | .ok _ => true
  | .error _ => false

/-- Events contributed by one batch element (empty when the pipeline fails). -/
def eventsOfArg (app : String) (now : Nat) (a : LogArg) : List Event :=
  match processArg app now a with
  | .ok b => (interpretBranch b).events
  | .error _ => []

/-- Concatenated events of a successful prefix of a batch. -/
def eventsOfArgs (app : String) (now : Nat) : List LogArg → List Event
  | [] => []
  | a :: rest => eventsOfArg app now a ++ eventsOfArgs app now rest

/-! ## Lemmas about lookup, the dict comprehension and the ignore loop -/

/-- The prediction attribute bag carried by a branch outcome, if any. -/
def predAttrsOf : BranchOutcome → Option PredictionAttrs
  | .predAndFeedback _ pa _ => some pa
  | .predOnly _ pa => some pa
  | .feedbackOnly _ => none

/-! ## Claims -/

/-- A DataRow sample value of type number, for concrete instantiations. -/
def dataRowNum (s : String) : Json :=
  Json.obj [(("value"), Json.str s), (("type"), Json.str ("number"))]

/-- A concrete record with DataRow inputs, one of them ignored. -/
def c3rec : Record :=
  { inputs := [(("x"), dataRowNum ("1")), (("y"), dataRowNum ("2"))],
    outputs := [(("o"), dataRowNum ("3"))],
    ignore_inputs := [("x")],
    feedback_id := some ("fid0") }

/-- A concrete feedback-only record, used for batch instantiations. -/
def fbRec1 : Record := { feedback_id := some ("x"), feedbacks := [(("f"), Json.str ("y"))] }

/-- A second concrete feedback-only record. -/
def fbRec2 : Record := { feedback_id := some ("z"), feedbacks := [(("g"), Json.str ("w"))] }

/-- A well-formed DataRow dict is a non-empty dict, hence truthy in Python. -/
theorem isDataRow_pyTruthy {j : Json} (h : isDataRow j = true) : j.pyTruthy = true := by
  cases j with
  | obj fs =>
    cases fs with
    | nil => simp [isDataRow, List.lookup] at h
    | cons p ps => simp [Json.pyTruthy]
  | null => simp [isDataRow] at h
  | bool b => simp [isDataRow] at h
  | num n => simp [isDataRow] at h
  | str s => simp [isDataRow] at h
  | arr xs => simp [isDataRow] at h

/-! ## Python string ordering (code-point lexicographic), used by sort_keys -/

theorem charListLe_total (a b : List Char) : charListLe a b = true ∨ charListLe b a = true := by
  induction a generalizing b with
  | nil => left; rfl
  | cons x xs ih =>
    cases b with
    | nil => right; rfl
    | cons y ys =>
      by_cases hxy : x < y
      · left; simp [charListLe, hxy]
      · by_cases hyx : y < x
        · right; simp [charListLe, hyx]
        · rcases ih ys with h | h
          · left; simp [charListLe, hxy, hyx, h]
          · right; simp [charListLe, hxy, hyx, h]

theorem charListLe_antisymm {a b : List Char} (h1 : charListLe a b = true)
    (h2 : charListLe b a = true) : a = b := by
  induction a generalizing b with
  | nil =>
    cases b with
    | nil => rfl
    | cons y ys => simp [charListLe] at h2
  | cons x xs ih =>
    cases b with
    | nil => simp [charListLe] at h1
    | cons y ys =>
      by_cases hxy : x < y
      · exfalso
        have hn : ¬ y < x := lt_asymm hxy
        simp [charListLe, hxy, hn] at h2
      · by_cases hyx : y < x
        · exfalso; simp [charListLe, hxy, hyx] at h1
        · have hx : x = y := le_antisymm (not_lt.mp hyx) (not_lt.mp hxy)
          subst hx
          simp only [charListLe, lt_irrefl, if_false] at h1 h2
          exact congrArg (x :: ·) (ih h1 h2)

theorem charListLe_trans {a b c : List Char} (h1 : charListLe a b = true)
    (h2 : charListLe b c = true) : charListLe a c = true := by
  induction a generalizing b c with
  | nil => rfl
  | cons x xs ih =>
    cases b with
    | nil => simp [charListLe] at h1
    | cons y ys =>
      cases c with
      | nil => simp [charListLe] at h2
      | cons z zs =>
        by_cases hxy : x < y
        · by_cases hyz : y < z
          · simp [charListLe, lt_trans hxy hyz]
          · by_cases hzy : z < y
            · simp [charListLe, hyz, hzy] at h2
            · have hyz' : y = z := le_antisymm (not_lt.mp hzy) (not_lt.mp hyz)
              subst hyz'
              simp [charListLe, hxy]
        · by_cases hyx : y < x
          · simp [charListLe, hxy, hyx] at h1
          · have hxy' : x = y := le_antisymm (not_lt.mp hyx) (not_lt.mp hxy)
            subst hxy'
            simp only [charListLe, lt_irrefl, if_false] at h1
            by_cases hyz : x < z
            · simp [charListLe, hyz]
            · by_cases hzy : z < x
              · simp [charListLe, hyz, hzy] at h2
              · simp only [charListLe, hyz, hzy, if_false] at h2
                simp only [charListLe, hyz, hzy, if_false]
                exact ih h1 h2

theorem strLe_total (a b : String) : strLe a b = true ∨ strLe b a = true :=
  charListLe_total a.data b.data

theorem strLe_trans {a b c : String} (h1 : strLe a b = true) (h2 : strLe b c = true) :
    strLe a c = true :=
  charListLe_trans h1 h2

theorem strLe_antisymm {a b : String} (h1 : strLe a b = true) (h2 : strLe b a = true) :
    a = b := by
  cases a with
  | mk da =>
    cases b with
    | mk db => exact congrArg String.mk (charListLe_antisymm h1 h2)

theorem strLe_refl (a : String) : strLe a a = true := by
  rcases strLe_total a a with h | h
  · exact h
  · exact h

/-! ## Sorting key/value pairs by key (json.dumps sort_keys=True) -/

theorem insertPair_perm (p : String × α) (l : List (String × α)) :
    (insertPair p l).Perm (p :: l) := by
  induction l with
  | nil => exact List.Perm.refl _
  | cons q qs ih =>
    by_cases h : strLe p.1 q.1 = true
    · simp [insertPair, h]
    · simp only [insertPair, h, if_false, Bool.false_eq_true]
      exact ((ih.cons q).trans (List.Perm.swap p q qs))

theorem sortPairs_perm (l : List (String × α)) : (sortPairs l).Perm l := by
  induction l with
  | nil => exact List.Perm.refl _
  | cons p ps ih =>
    exact (insertPair_perm p (sortPairs ps)).trans (ih.cons p)

theorem mem_of_mem_sortPairs {p : String × α} {l : List (String × α)}
    (h : p ∈ sortPairs l) : p ∈ l :=
  (sortPairs_perm l).mem_iff.mp h

theorem insertPair_sorted {p : String × α} {l : List (String × α)}
    (h : l.Pairwise keyLeP) : (insertPair p l).Pairwise keyLeP := by
  induction l with
  | nil => simp [insertPair, List.Pairwise, keyLeP]
  | cons q qs ih =>
    rcases List.pairwise_cons.mp h with ⟨hq, hqs⟩
    by_cases hle : strLe p.1 q.1 = true
    · simp only [insertPair, hle, if_true]
      refine List.Pairwise.cons ?_ h
      intro r hr
      rcases List.mem_cons.mp hr with rfl | hr
      · exact hle
      · exact strLe_trans hle (hq r hr)
    · simp only [insertPair, hle, if_false, Bool.false_eq_true]
      refine List.Pairwise.cons ?_ (ih hqs)
      intro r hr
      have hr' : r = p ∨ r ∈ qs := by
        have hm := (insertPair_perm p qs).mem_iff.mp hr
        simpa using hm
      rcases hr' with hre | hr'
      · rw [hre]
        rcases strLe_total p.1 q.1 with ht | ht
        · exact absurd ht hle
        · exact ht
      · exact hq r hr'

theorem sortPairs_sorted (l : List (String × α)) : (sortPairs l).Pairwise keyLeP := by
  induction l with
  | nil => simp [sortPairs]
  | cons p ps ih => exact insertPair_sorted ih

instance : IsAntisymm (String × α) keyLtP :=
  ⟨fun _ _ h1 h2 => absurd (strLe_antisymm h1.1 h2.1) h1.2⟩

theorem pairwise_and {α : Type u_1} {R S : α → α → Prop} {l : List α}
    (hr : l.Pairwise R) (hs : l.Pairwise S) : l.Pairwise (fun a b => R a b ∧ S a b) := by
  induction l with
  | nil => exact List.Pairwise.nil
  | cons x xs ih =>
    rcases List.pairwise_cons.mp hr with ⟨hr1, hr2⟩
    rcases List.pairwise_cons.mp hs with ⟨hs1, hs2⟩
    exact List.Pairwise.cons (fun b hb => ⟨hr1 b hb, hs1 b hb⟩) (ih hr2 hs2)

theorem pairwise_keyLtP_of_nodup {l : List (String × α)}
    (hs : l.Pairwise keyLeP) (hn : (l.map Prod.fst).Nodup) : l.Pairwise keyLtP := by
  have hne : l.Pairwise (fun p q : String × α => p.1 ≠ q.1) := List.pairwise_map.mp hn
  exact (pairwise_and hs hne).imp (fun h => ⟨h.1, h.2⟩)

/-- Two permuted pair lists with duplicate-free keys sort to the same list:
the canonical key-sorted form is insertion-order independent. -/
theorem sortPairs_congr {l1 l2 : List (String × α)} (hp : l1.Perm l2)
    (hn : (l1.map Prod.fst).Nodup) : sortPairs l1 = sortPairs l2 := by
  have hn2 : (l2.map Prod.fst).Nodup := (hp.map Prod.fst).nodup_iff.mp hn
  have hperm : (sortPairs l1).Perm (sortPairs l2) :=
    ((sortPairs_perm l1).trans hp).trans (sortPairs_perm l2).symm
  have hnod1 : ((sortPairs l1).map Prod.fst).Nodup :=
    ((sortPairs_perm l1).map Prod.fst).nodup_iff.mpr hn
  have hnod2 : ((sortPairs l2).map Prod.fst).Nodup :=
    ((sortPairs_perm l2).map Prod.fst).nodup_iff.mpr hn2
  exact List.eq_of_perm_of_sorted hperm
    (pairwise_keyLtP_of_nodup (sortPairs_sorted l1) hnod1)
    (pairwise_keyLtP_of_nodup (sortPairs_sorted l2) hnod2)

/-! ## JSON serialization: embedding of Python json.dumps with default
separators, ensure_ascii escaping and an optional sort_keys flag -/

/-- dumpFields is the map of pyDumps over the values. -/
theorem dumpFields_eq_map (sort : Bool) (fs : List (String × Json)) :
    dumpFields sort fs = fs.map fun p => (p.1, pyDumps sort p.2) := by
  induction fs with
  | nil => rfl
  | cons p rest ih =>
    cases p with
    | mk k v => simp [dumpFields, ih]

/-! ## MD5 (the hash applied by hashlib.md5 in compute_feedback_id),
over byte lists, with 32-bit words as Nat reduced modulo 2^32 -/

theorem lookup_eq_some_of_mem {l : List (String × Json)} {k : String} {v : Json}
    (hn : (l.map Prod.fst).Nodup) (hm : (k, v) ∈ l) : l.lookup k = some v := by
  induction l with
  | nil => cases hm
  | cons p rest ih =>
    rcases List.mem_cons.mp hm with heq | hmem
    · rw [← heq]
      simp [List.lookup]
    · have hnc := hn
      rw [List.map_cons] at hnc
      rcases List.nodup_cons.mp hnc with ⟨hnotin, hn'⟩
      have hk : k ≠ p.1 := by
        intro hcontra
        exact hnotin (List.mem_map.mpr ⟨(k, v), hmem, hcontra⟩)
      cases p with
      | mk k' v' =>
        have hne : (k == k') = false := beq_eq_false_iff_ne.mpr hk
        simp [List.lookup, hne, ih hn' hmem]

theorem mem_of_lookup_eq_some {l : List (String × Json)} {k : String} {v : Json}
    (h : l.lookup k = some v) : (k, v) ∈ l := by
  induction l with
  | nil => simp [List.lookup] at h
  | cons p rest ih =>
    cases p with
    | mk k' v' =>
      by_cases hk : k = k'
      · subst hk
        simp [List.lookup] at h
        simp [h]
      · have hne : (k == k') = false := beq_eq_false_iff_ne.mpr hk
        simp only [List.lookup, hne] at h
        exact List.mem_cons.mpr (Or.inr (ih h))

theorem lookup_filter_self (l : List (String × Json)) (k : String) :
    (l.filter fun p => !(p.1 == k)).lookup k = none := by
  induction l with
  | nil => rfl
  | cons p rest ih =>
    cases p with
    | mk k' v' =>
      by_cases hk : k' = k
      · subst hk
        simp only [List.filter, beq_self_eq_true, Bool.not_true]
        exact ih
      · have hne : (k' == k) = false := beq_eq_false_iff_ne.mpr hk
        have hne2 : (k == k') = false := beq_eq_false_iff_ne.mpr (fun h => hk h.symm)
        simp only [List.filter, hne, Bool.not_false]
        simp only [List.lookup, hne2]
        exact ih

theorem lookup_filter_other {k k' : String} (hk : k ≠ k') (l : List (String × Json)) :
    (l.filter fun p => !(p.1 == k')).lookup k = l.lookup k := by
  induction l with
  | nil => rfl
  | cons p rest ih =>
    cases p with
    | mk k'' v'' =>
      by_cases h2 : k'' = k'
      · subst h2
        have hne : (k == k'') = false := beq_eq_false_iff_ne.mpr hk
        simp only [List.filter, beq_self_eq_true, Bool.not_true]
        simp only [List.lookup, hne]
        exact ih
      · have hne : (k'' == k') = false := beq_eq_false_iff_ne.mpr h2
        simp only [List.filter, hne, Bool.not_false]
        by_cases h3 : k = k''
        · subst h3
          simp [List.lookup]
        · have hne3 : (k == k'') = false := beq_eq_false_iff_ne.mpr h3
          simp only [List.lookup, hne3]
          exact ih

theorem popIgnored_lookup_other {k k' : String} (hk : k ≠ k')
    (l : List (String × Json)) : (popIgnored l k').lookup k = l.lookup k := by
  unfold popIgnored
  cases hkv : l.lookup k' with
  | none => rfl
  | some v =>
    by_cases htr : v.pyTruthy = true
    · simp only [htr, if_true]
      exact lookup_filter_other hk l
    · simp only [Bool.not_eq_true] at htr
      simp [htr]

theorem popIgnored_lookup_none {k k' : String} {l : List (String × Json)}
    (h : l.lookup k = none) : (popIgnored l k').lookup k = none := by
  by_cases hk : k = k'
  · subst hk
    unfold popIgnored
    simp [h]
  · rw [popIgnored_lookup_other hk l]
    exact h

theorem popIgnored_self_truthy {k : String} {l : List (String × Json)} {v : Json}
    (h : l.lookup k = some v) (htr : v.pyTruthy = true) :
    (popIgnored l k).lookup k = none := by
  unfold popIgnored
  simp only [h, htr, if_true]
  exact lookup_filter_self l k

theorem stripIgnored_lookup_none {ignore : List String} {l : List (String × Json)}
    {k : String} (h : l.lookup k = none) : (stripIgnored ignore l).lookup k = none := by
  induction ignore generalizing l with
  | nil => exact h
  | cons k' ks ih => exact ih (popIgnored_lookup_none h)

theorem stripIgnored_lookup_none_of_truthy {ignore : List String}
    {l : List (String × Json)} {k : String} {v : Json} (hmem : k ∈ ignore)
    (h : l.lookup k = some v) (htr : v.pyTruthy = true) :
    (stripIgnored ignore l).lookup k = none := by
  induction ignore generalizing l with
  | nil => cases hmem
  | cons k' ks ih =>
    rcases List.mem_cons.mp hmem with heq | hmem'
    · subst heq
      show (stripIgnored ks (popIgnored l k)).lookup k = none
      exact stripIgnored_lookup_none (popIgnored_self_truthy h htr)
    · by_cases hk : k = k'
      · subst hk
        show (stripIgnored ks (popIgnored l k)).lookup k = none
        exact stripIgnored_lookup_none (popIgnored_self_truthy h htr)
      · show (stripIgnored ks (popIgnored l k')).lookup k = none
        exact ih hmem' (by rw [popIgnored_lookup_other hk l]; exact h)

theorem stripIgnored_id_of_none {ignore : List String} {l : List (String × Json)}
    (h : ∀ k ∈ ignore, l.lookup k = none) : stripIgnored ignore l = l := by
  induction ignore with
  | nil => rfl
  | cons k' ks ih =>
    have h1 : popIgnored l k' = l := by
      unfold popIgnored
      simp [h k' (List.mem_cons_self k' ks)]
    show stripIgnored ks (popIgnored l k') = l
    rw [h1]
    exact ih (fun k hk => h k (List.mem_cons.mpr (Or.inr hk)))

theorem stripIgnored_nil (ignore : List String) : stripIgnored ignore [] = [] :=
  stripIgnored_id_of_none (fun _ _ => rfl)

theorem mem_dictInsert {p : String × Json} {k : String} {v : Json}
    {acc : List (String × Json)} (h : p ∈ dictInsert k v acc) :
    p = (k, v) ∨ (p.1 = k ∧ p.2 = v) ∨ p ∈ acc := by
  induction acc with
  | nil =>
    simp [dictInsert] at h
    exact Or.inl h
  | cons q rest ih =>
    cases q with
    | mk k' v' =>
      by_cases hk : k = k'
      · subst hk
        simp only [dictInsert, if_pos rfl] at h
        rcases List.mem_cons.mp h with heq | hmem
        · exact Or.inr (Or.inl (by rw [heq]; exact ⟨rfl, rfl⟩))
        · exact Or.inr (Or.inr (List.mem_cons.mpr (Or.inr hmem)))
      · simp only [dictInsert, if_neg hk] at h
        rcases List.mem_cons.mp h with heq | hmem
        · exact Or.inr (Or.inr (List.mem_cons.mpr (Or.inl heq)))
        · rcases ih hmem with h1 | h1 | h1
          · exact Or.inl h1
          · exact Or.inr (Or.inl h1)
          · exact Or.inr (Or.inr (List.mem_cons.mpr (Or.inr h1)))

theorem restrictGo_mem {inputs acc d : List (String × Json)} {ks : List String}
    (h : restrictGo inputs acc ks = .ok d) (p : String × Json) (hp : p ∈ d) :
    p ∈ acc ∨ inputs.lookup p.1 = some p.2 := by
  induction ks generalizing acc with
  | nil =>
    simp only [restrictGo, Except.ok.injEq] at h
    exact Or.inl (h ▸ hp)
  | cons k ks ih =>
    simp only [restrictGo] at h
    cases hkv : inputs.lookup k with
    | none => rw [hkv] at h; cases h
    | some v =>
      rw [hkv] at h
      rcases ih h with hmem | hlook
      · rcases mem_dictInsert hmem with h1 | h1 | h1
        · right; rw [h1]; exact hkv
        · right; rw [h1.1, h1.2]; exact hkv
        · left; exact h1
      · right; exact hlook

theorem restrictGo_not_mem_keys {inputs d : List (String × Json)} {ks : List String}
    {k : String} (h : restrictGo inputs [] ks = .ok d)
    (hnone : inputs.lookup k = none) : k ∉ d.map Prod.fst := by
  intro hmem
  rcases List.mem_map.mp hmem with ⟨p, hp, hfst⟩
  rcases restrictGo_mem h p hp with hacc | hlook
  · cases hacc
  · rw [hfst] at hlook
    rw [hlook] at hnone
    cases hnone

/-! ## Lemmas for the determinism and shape of compute_feedback_id -/

theorem restrictGo_congr {l1 l2 : List (String × Json)} {ks : List String}
    (h : ∀ k ∈ ks, l1.lookup k = l2.lookup k) (acc : List (String × Json)) :
    restrictGo l1 acc ks = restrictGo l2 acc ks := by
  induction ks generalizing acc with
  | nil => rfl
  | cons k ks ih =>
    have hk := h k (List.mem_cons_self k ks)
    simp only [restrictGo, hk]
    cases l2.lookup k with
    | none => rfl
    | some v => exact ih (fun k' hk' => h k' (List.mem_cons.mpr (Or.inr hk'))) _

theorem dictInsert_append {k : String} {v : Json} {acc : List (String × Json)}
    (h : k ∉ acc.map Prod.fst) : dictInsert k v acc = acc ++ [(k, v)] := by
  induction acc with
  | nil => rfl
  | cons q rest ih =>
    cases q with
    | mk k' v' =>
      rw [List.map_cons] at h
      have hk : k ≠ k' := fun hc => h (List.mem_cons.mpr (Or.inl hc))
      have h2 : k ∉ rest.map Prod.fst := fun hm => h (List.mem_cons.mpr (Or.inr hm))
      simp only [dictInsert, if_neg hk, List.cons_append]
      rw [ih h2]

theorem restrictGo_build {inputs : List (String × Json)} (m : List (String × Json)) :
    ∀ acc, (∀ p ∈ m, inputs.lookup p.1 = some p.2) →
      (∀ p ∈ m, p.1 ∉ acc.map Prod.fst) → (m.map Prod.fst).Nodup →
      restrictGo inputs acc (m.map Prod.fst) = .ok (acc ++ m) := by
  induction m with
  | nil =>
    intro acc _ _ _
    simp [restrictGo]
  | cons p m' ih =>
    intro acc hlook hacc hnodup
    cases p with
    | mk k v =>
      have hk : inputs.lookup k = some v := hlook (k, v) (List.mem_cons_self _ _)
      simp only [List.map_cons, restrictGo, hk]
      have hknotin : k ∉ acc.map Prod.fst := hacc (k, v) (List.mem_cons_self _ _)
      rw [dictInsert_append hknotin]
      rw [List.map_cons] at hnodup
      rcases List.nodup_cons.mp hnodup with ⟨hknot, hnodup'⟩
      have hrec := ih (acc ++ [(k, v)])
        (fun q hq => hlook q (List.mem_cons.mpr (Or.inr hq)))
        (fun q hq => by
          rw [List.map_append]
          intro hmem
          rcases List.mem_append.mp hmem with h1 | h1
          · exact hacc q (List.mem_cons.mpr (Or.inr hq)) h1
          · simp only [List.map_cons, List.map_nil, List.mem_singleton] at h1
            exact hknot (by rw [← h1]; exact List.mem_map.mpr ⟨q, hq, rfl⟩))
        hnodup'
      rw [hrec, List.append_assoc]
      rfl

theorem restrictGo_self {l : List (String × Json)} (hn : (l.map Prod.fst).Nodup) :
    restrictGo l [] (l.map Prod.fst) = .ok l := by
  have h := restrictGo_build l []
    (fun p hp => by
      cases p with
      | mk k v => exact lookup_eq_some_of_mem hn hp)
    (fun p _ => by simp)
    hn
  simpa using h

/-! ## Shape of the hex digest -/

theorem md5Bytes_length (msg : List Nat) : (md5Bytes msg).length = 16 := by
  simp [md5Bytes, le4]

theorem hexOfBytes_length (l : List Nat) : (hexOfBytes l).length = 2 * l.length := by
  induction l with
  | nil => rfl
  | cons b bs ih =>
    simp only [hexOfBytes, List.length_cons, ih]
    omega

theorem hexDigit_mem (n : Nat) : hexDigit n ∈ hexDigits := by
  have h : n % 16 < hexDigits.length := by
    have h16 : n % 16 < 16 := Nat.mod_lt _ (by norm_num)
    have hlen : hexDigits.length = 16 := rfl
    omega
  rw [hexDigit, List.getD_eq_getElem?_getD, List.getElem?_eq_getElem h]
  simp only [Option.getD_some]
  exact List.get_mem _ _ _

theorem mem_hexOfBytes {c : Char} {l : List Nat} (h : c ∈ hexOfBytes l) :
    c ∈ hexDigits := by
  induction l with
  | nil => cases h
  | cons b bs ih =>
    rcases List.mem_cons.mp h with h1 | h2
    · rw [h1]; exact hexDigit_mem _
    · rcases List.mem_cons.mp h2 with h3 | h4
      · rw [h3]; exact hexDigit_mem _
      · exact ih h4

theorem md5Hex_length (msg : List Nat) : (md5Hex msg).length = 32 := by
  show (String.mk (hexOfBytes (md5Bytes msg))).length = 32
  rw [String.length_mk, hexOfBytes_length, md5Bytes_length]

theorem md5Hex_hexchars (msg : List Nat) :
    ((md5Hex msg).data.all fun c => decide (c ∈ hexDigits)) = true := by
  rw [List.all_eq_true]
  intro c hc
  have hmem : c ∈ hexOfBytes (md5Bytes msg) := hc
  simpa using mem_hexOfBytes hmem

/-- The object equation of pyDumps, by structural reduction. -/
theorem pyDumps_obj (sort : Bool) (fs : List (String × Json)) :
    pyDumps sort (Json.obj fs) =
      "\x7b" ++
        commaSep (((if sort then sortPairs (dumpFields sort fs) else dumpFields sort fs)).map
          renderItem) ++ "\x7d" := rfl

/-- Serializing key-sorted fields is insertion-order independent when the
keys are duplicate-free. -/
theorem pyDumps_sorted_congr {l1 l2 : List (String × Json)} (hp : l1.Perm l2)
    (hn : (l1.map Prod.fst).Nodup) :
    pyDumps true (Json.obj l1) = pyDumps true (Json.obj l2) := by
  rw [pyDumps_obj, pyDumps_obj]
  simp only [if_true]
  have hperm : (dumpFields true l1).Perm (dumpFields true l2) := by
    rw [dumpFields_eq_map, dumpFields_eq_map]
    exact hp.map _
  have hkeys : ((dumpFields true l1).map Prod.fst).Nodup := by
    rw [dumpFields_eq_map, List.map_map]
    exact hn
  rw [sortPairs_congr hperm hkeys]

/-- Claim C1: for every two records whose inputs, restricted to
feedback_keys (or to all input keys when feedback_keys is empty), have
identical key/value content, the identifier computed by compute_feedback_id
is byte-identical regardless of the insertion order of the keys; a computed
identifier is the MD5 hash of the canonical key-sorted JSON serialization
of the restricted dict, hex-encoded in lowercase, 32 characters long. -/
theorem c1_compute_feedback_id_deterministic
    (inputs1 inputs2 : List (String × Json)) (fk : List String)
    (h1 : (inputs1.map Prod.fst).Nodup) (h2 : (inputs2.map Prod.fst).Nodup)
    (hperm : fk = [] → inputs1.Perm inputs2)
    (hlook : ∀ k ∈ fk, inputs1.lookup k = inputs2.lookup k) :
    compute_feedback_id inputs1 fk = compute_feedback_id inputs2 fk ∧
    (∀ s, compute_feedback_id inputs1 fk = .ok s →
      s.length = 32 ∧ (s.data.all fun c => decide (c ∈ hexDigits)) = true) ∧
    (∀ d, restrictGo inputs1 [] (if fk.isEmpty then inputs1.map Prod.fst else fk) = .ok d →
      compute_feedback_id inputs1 fk = .ok (md5Hex (utf8 (pyDumps true (Json.obj d))))) := by
  refine ⟨?_, ?_, ?_⟩
  · cases fk with
    | nil =>
      have hp := hperm rfl
      simp only [compute_feedback_id, List.isEmpty_nil, if_true]
      rw [restrictGo_self h1, restrictGo_self h2]
      dsimp only
      rw [pyDumps_sorted_congr hp h1]
    | cons k ks =>
      simp only [compute_feedback_id, List.isEmpty_cons, Bool.false_eq_true, if_false]
      rw [restrictGo_congr hlook]
  · intro s hs
    simp only [compute_feedback_id] at hs
    cases hr : restrictGo inputs1 [] (if fk.isEmpty then inputs1.map Prod.fst else fk) with
    | ok d =>
      rw [hr] at hs
      simp only [Except.ok.injEq] at hs
      rw [← hs]
      exact ⟨md5Hex_length _, md5Hex_hexchars _⟩
    | error k =>
      rw [hr] at hs
      cases hs
  · intro d hd
    simp only [compute_feedback_id]
    rw [hd]

/-- Witness for C1, at two two-field inputs dicts built in opposite orders. -/
theorem c1_witness :
    compute_feedback_id [(("b"), Json.str ("2")), (("a"), Json.str ("1"))] [] =
      compute_feedback_id [(("a"), Json.str ("1")), (("b"), Json.str ("2"))] [] ∧
    (md5Hex (utf8 (pyDumps true
      (Json.obj [(("b"), Json.str ("2")), (("a"), Json.str ("1"))])))).length = 32 := by
  have h := c1_compute_feedback_id_deterministic
    [(("b"), Json.str ("2")), (("a"), Json.str ("1"))]
    [(("a"), Json.str ("1")), (("b"), Json.str ("2"))] []
    (by decide) (by decide)
    (fun _ => List.Perm.swap (("a"), Json.str ("1")) (("b"), Json.str ("2")) [])
    (fun k hk => absurd hk (List.not_mem_nil k))
  refine ⟨h.1, ?_⟩
  have h3 := h.2.2 [(("b"), Json.str ("2")), (("a"), Json.str ("1"))] (by rfl)
  exact (h.2.1 _ h3).1

/-- Claim C2 (amended): at identifier resolution, any string feedback_id,
including the empty string, is accepted verbatim by the isinstance check;
with no string, a non-empty post-ignore inputs dict leads to a computed
identifier; otherwise the record fails with MissingIdentifierSource, which
log_record surfaces. -/
theorem c2_identifier_resolution (app : String) (now : Nat) (fid : Option String)
    (inputs : List (String × Json)) (fk : List String) (r : Record) :
    (∀ s, fid = some s → resolveFeedbackId fid inputs fk = .ok s) ∧
    (fid = none → inputs.isEmpty = false →
      resolveFeedbackId fid inputs fk =
        (match compute_feedback_id inputs fk with
          | .ok h => .ok h
          | .error k => .error (.keyError k))) ∧
    (fid = none → inputs.isEmpty = true →
      resolveFeedbackId fid inputs fk = .error .missingIdentifierSource) ∧
    (r.feedback_id = none → (stripIgnored r.ignore_inputs r.inputs).isEmpty = true →
      classifyRecord app now r = .error .missingIdentifierSource) := by
  refine ⟨?_, ?_, ?_, ?_⟩
  · intro s hs
    rw [hs]
    rfl
  · intro hn hne
    rw [hn]
    simp [resolveFeedbackId, hne]
  · intro hn he
    rw [hn]
    simp [resolveFeedbackId, he]
  · intro hid hempty
    simp [classifyRecord, hid, optStrTruthy, resolveFeedbackId, hempty]

/-- Witness for C2, exercising the verbatim branch and the failing branch. -/
theorem c2_witness :
    resolveFeedbackId (some ("x")) [] [] = .ok ("x") ∧
    classifyRecord ("a") 1 {} = .error .missingIdentifierSource := by
  have h := c2_identifier_resolution ("a") 1 (some ("x")) [] [] {}
  exact ⟨h.1 ("x") rfl, h.2.2.2 rfl rfl⟩

/-- Counterexample to C2 as stated: feedback_id is the empty string (not a
non-empty string) and inputs are empty, so the claim predicts a
MissingIdentifierSource failure, but the call succeeds and emits a feedback
event carrying the empty identifier verbatim. -/
theorem c2_counterexample :
    log_record ("app") 5 0
      (.record { feedback_id := some (""), feedbacks := [(("status"), Json.str ("ok"))] }) 1 =
      .ok { events := [.feedback (log_feedback_attribute ("app") ("")
              [(("status"), Json.str ("ok"))] 1)],
            returned := none, shutdown := true } := by
  rfl

theorem stripIgnored_lookup_none_of_dataRow {ig : List String}
    {l : List (String × Json)} (hDR : ∀ p ∈ l, isDataRow p.2 = true) :
    ∀ k ∈ ig, (stripIgnored ig l).lookup k = none := by
  intro k hk
  cases hlk : l.lookup k with
  | none => exact stripIgnored_lookup_none hlk
  | some v =>
    have hmem := mem_of_lookup_eq_some hlk
    have htr : v.pyTruthy = true := isDataRow_pyTruthy (hDR (k, v) hmem)
    exact stripIgnored_lookup_none_of_truthy hk hlk htr

theorem stripIgnored_idem_of_dataRow {ig : List String}
    {l : List (String × Json)} (hDR : ∀ p ∈ l, isDataRow p.2 = true) :
    stripIgnored ig (stripIgnored ig l) = stripIgnored ig l :=
  stripIgnored_id_of_none (stripIgnored_lookup_none_of_dataRow hDR)

theorem log_prediction_attribute_inputs {app : String} {now : Nat}
    {inputs outputs : List (String × Json)} {fk ig : List String}
    {fid : String} {ts : Nat} {ver env : String} {pa : PredictionAttrs}
    (h : log_prediction_attribute app now inputs outputs fk ig fid ts ver env = .ok pa) :
    pa.inputs = pyDumps false (Json.obj (stripIgnored ig inputs)) := by
  simp only [log_prediction_attribute] at h
  split at h
  · cases h
  · split at h
    · cases h
    · split at h
      · cases h
      · simp only [Except.ok.injEq] at h
        rw [← h]

theorem classifyRecord_pred_inputs {app : String} {now : Nat} {r : Record}
    {b : BranchOutcome} {pa : PredictionAttrs}
    (h : classifyRecord app now r = .ok b) (hpa : predAttrsOf b = some pa) :
    pa.inputs = pyDumps false
      (Json.obj (stripIgnored r.ignore_inputs (stripIgnored r.ignore_inputs r.inputs))) := by
  simp only [classifyRecord] at h
  split at h
  · cases h
  · split at h
    · cases h
    · split at h
      · split at h
        · cases h
        · rename_i heq
          simp only [Except.ok.injEq] at h
          rw [← h] at hpa
          simp only [predAttrsOf, Option.some.injEq] at hpa
          rw [← hpa]
          exact log_prediction_attribute_inputs heq
      · split at h
        · split at h
          · cases h
          · rename_i heq
            simp only [Except.ok.injEq] at h
            rw [← h] at hpa
            simp only [predAttrsOf, Option.some.injEq] at hpa
            rw [← hpa]
            exact log_prediction_attribute_inputs heq
        · split at h
          · simp only [Except.ok.injEq] at h
            rw [← h] at hpa
            simp only [predAttrsOf] at hpa
            cases hpa
          · cases h

/-- Claim C3: a field named in ignore_inputs that is present in inputs
(with the truthy value every DataRow has) is removed before classification
and identifier derivation; a listed but absent field causes no error and no
change; a removed field never enters the dict built for identifier
derivation; and on records whose inputs are DataRows, the serialized inputs
of an emitted prediction are exactly those of the stripped dict, in which
every ignored field is absent. -/
theorem c3_ignore_inputs_stripped
    (ignore : List String) (inputs : List (String × Json)) (k : String) (v : Json)
    (app : String) (now : Nat) (r : Record) :
    (k ∈ ignore → inputs.lookup k = some v → v.pyTruthy = true →
      (stripIgnored ignore inputs).lookup k = none) ∧
    ((∀ k2 ∈ ignore, inputs.lookup k2 = none) → stripIgnored ignore inputs = inputs) ∧
    (∀ (keys : List String) (d : List (String × Json)),
      (stripIgnored ignore inputs).lookup k = none →
      restrictGo (stripIgnored ignore inputs) [] keys = .ok d → k ∉ d.map Prod.fst) ∧
    ((∀ p ∈ r.inputs, isDataRow p.2 = true) →
      (∀ k2 ∈ r.ignore_inputs, (stripIgnored r.ignore_inputs r.inputs).lookup k2 = none) ∧
      (∀ b pa, classifyRecord app now r = .ok b → predAttrsOf b = some pa →
        pa.inputs = pyDumps false (Json.obj (stripIgnored r.ignore_inputs r.inputs)))) := by
  refine ⟨?_, ?_, ?_, ?_⟩
  · intro hk hlk htr
    exact stripIgnored_lookup_none_of_truthy hk hlk htr
  · intro hnone
    exact stripIgnored_id_of_none hnone
  · intro keys d hnone hres
    exact restrictGo_not_mem_keys hres hnone
  · intro hDR
    refine ⟨stripIgnored_lookup_none_of_dataRow hDR, ?_⟩
    intro b pa hok hpa
    rw [classifyRecord_pred_inputs hok hpa, stripIgnored_idem_of_dataRow hDR]

/-- Witness for C3: a present truthy DataRow field is stripped, an absent
listed field changes nothing, and the pipeline-level guarantee holds on a
concrete DataRow record. -/
theorem c3_witness :
    (stripIgnored [("x")] [(("x"), dataRowNum ("1"))]).lookup ("x") = none ∧
    stripIgnored [("z")] [(("x"), dataRowNum ("1"))] = [(("x"), dataRowNum ("1"))] ∧
    (stripIgnored c3rec.ignore_inputs c3rec.inputs).lookup ("x") = none := by
  refine ⟨?_, ?_, ?_⟩
  · exact (c3_ignore_inputs_stripped [("x")] [(("x"), dataRowNum ("1"))] ("x")
      (dataRowNum ("1")) ("app") 5 c3rec).1 (by decide) (by rfl) (by rfl)
  · exact (c3_ignore_inputs_stripped [("z")] [(("x"), dataRowNum ("1"))] ("x")
      (dataRowNum ("1")) ("app") 5 c3rec).2.1 (by
        intro k2 hk2
        have h2 : k2 = ("z") := by simpa using hk2
        rw [h2]
        rfl)
  · exact ((c3_ignore_inputs_stripped [("x")] [] ("x") (dataRowNum ("1")) ("app") 5
      c3rec).2.2.2 (by decide)).1 ("x") (by decide)

/-- Counterexample to C4 as stated: the caller-supplied feedback_id is the
empty string, which is falsy, so despite non-empty feedback_keys the
conflict check does not fire and the call succeeds. -/
theorem c4_counterexample :
    log_record ("app") 5 0
      (.record { feedback_keys := [("k")], feedback_id := some (""),
                 feedbacks := [(("f"), Json.str ("x"))] }) 1 =
      .ok { events := [.feedback (log_feedback_attribute ("app") ("")
              [(("f"), Json.str ("x"))] 1)],
            returned := none, shutdown := true } := by
  rfl

/-- Claim C4 (amended): with non-empty feedback_keys and a caller-supplied
truthy (non-empty) feedback_id, log_record fails with ConflictingIdentifier
regardless of the values of all other record fields. -/
theorem c4_conflicting_identifier (app : String) (now : Nat) (draw : ℚ) (r : Record)
    (h1 : draw ≤ 1)
    (hfk : r.feedback_keys.isEmpty = false) (hfid : optStrTruthy r.feedback_id = true) :
    log_record app now draw (.record r) 1 = .error .conflictingIdentifier := by
  simp only [log_record]
  rw [if_pos ⟨le_refl (1 : ℚ), by norm_num⟩, if_neg (not_lt.mpr h1)]
  simp [processArg, classifyRecord, hfk, hfid]

/-- Witness for C4 at a concrete conflicted record. -/
theorem c4_witness :
    log_record ("a") 1 (1/2)
      (.record { feedback_keys := [("k")], feedback_id := some ("id1"),
                 inputs := [(("i"), dataRowNum ("1"))] }) 1 =
      .error .conflictingIdentifier :=
  c4_conflicting_identifier ("a") 1 (1/2) _ (by norm_num) (by rfl) (by rfl)

/-- Counterexample to C5 as stated: a record meeting all three stated
conditions but also carrying non-empty feedback_keys fails with
ConflictingIdentifier instead of emitting the feedback event. -/
theorem c5_counterexample :
    log_record ("app") 5 0
      (.record { feedback_keys := [("k")], feedback_id := some ("abc123"),
                 feedbacks := [(("f"), Json.str ("x"))] }) 1 =
      .error .conflictingIdentifier := by
  rfl

/-- Claim C5 (amended): with non-empty feedbacks, a supplied feedback_id,
empty inputs and empty feedback_keys, log_record emits exactly one feedback
event carrying the identifier verbatim, no prediction event, and returns
no identifier (the provider is shut down on this path). -/
theorem c5_feedback_only (app : String) (now : Nat) (draw : ℚ) (s : String)
    (outs fbs : List (String × Json)) (ign : List String) (ts : Nat) (ver env : String)
    (h1 : draw ≤ 1) (hfb : fbs.isEmpty = false) :
    log_record app now draw
      (.record { inputs := [], outputs := outs, feedback_keys := [],
                 feedback_id := some s, feedbacks := fbs, ignore_inputs := ign,
                 timestamp := ts, version := ver, application_env := env }) 1 =
      .ok { events := [.feedback (log_feedback_attribute app s fbs ts)],
            returned := none, shutdown := true } := by
  simp only [log_record]
  rw [if_pos ⟨le_refl (1 : ℚ), by norm_num⟩, if_neg (not_lt.mpr h1)]
  simp [processArg, classifyRecord, stripIgnored_nil, resolveFeedbackId, optStrTruthy,
    hfb, interpretBranch]

/-- Witness for C5 at the spec's own scenario. -/
theorem c5_witness :
    log_record ("app") 5 0
      (.record { inputs := [], outputs := [], feedback_keys := [],
                 feedback_id := some ("abc123"), feedbacks := [(("f"), Json.str ("x"))],
                 ignore_inputs := [], timestamp := 7, version := ("1"),
                 application_env := ("dev") }) 1 =
      .ok { events := [.feedback (log_feedback_attribute ("app") ("abc123")
              [(("f"), Json.str ("x"))] 7)],
            returned := none, shutdown := true } :=
  c5_feedback_only ("app") 5 0 ("abc123") [] [(("f"), Json.str ("x"))] [] 7 ("1") ("dev")
    (by norm_num) (by rfl)

/-- Counterexample to C6 as stated: the record's inputs are non-empty, the
outputs and feedbacks empty, but the single input field is listed in
ignore_inputs, so the stripped inputs are empty and the call fails with
MissingIdentifierSource, which the claim rules out. -/
theorem c6_counterexample :
    log_record ("app") 5 0
      (.record { inputs := [(("a"), dataRowNum ("1"))], ignore_inputs := [("a")] }) 1 =
      .error .missingIdentifierSource := by
  rfl

/-- Claim C6 (amended): when the post-ignore inputs are non-empty, outputs
and feedbacks empty, no feedback_keys/feedback_id conflict, and identifier
resolution succeeds, log_record does not fail with MissingIdentifierSource
but with EmptyRecord, emitting no event. -/
theorem c6_empty_record (app : String) (now : Nat) (draw : ℚ) (r : Record)
    (h1 : draw ≤ 1)
    (hin : (stripIgnored r.ignore_inputs r.inputs).isEmpty = false)
    (hout : r.outputs.isEmpty = true) (hfb : r.feedbacks.isEmpty = true)
    (hconf : (!r.feedback_keys.isEmpty && optStrTruthy r.feedback_id) = false)
    (hres : isOkE (resolveFeedbackId r.feedback_id
      (stripIgnored r.ignore_inputs r.inputs) r.feedback_keys) = true) :
    log_record app now draw (.record r) 1 = .error .emptyRecord := by
  simp only [log_record]
  rw [if_pos ⟨le_refl (1 : ℚ), by norm_num⟩, if_neg (not_lt.mpr h1)]
  simp only [processArg, classifyRecord, hconf, Bool.false_eq_true, if_false]
  cases hr : resolveFeedbackId r.feedback_id
      (stripIgnored r.ignore_inputs r.inputs) r.feedback_keys with
  | error e => simp [isOkE, hr] at hres
  | ok fid => simp [hr, hin, hout, hfb]

set_option maxRecDepth 16000 in
/-- Witness for C6 at a concrete record with an input and nothing else. -/
theorem c6_witness :
    log_record ("a") 1 0 (.record { inputs := [(("a"), dataRowNum ("1"))] }) 1 =
      .error .emptyRecord :=
  c6_empty_record ("a") 1 0 _ (by norm_num) (by rfl) (by rfl) (by rfl) (by rfl) (by rfl)

/-- Counterexample to C7 as stated: random.random() can return exactly 0.0,
and 0.0 > 0 is false, so with sampleRate = 0 and draw 0 the record is
processed and an event is emitted; "no event is ever emitted for every draw
in the unit interval" is false at draw 0. -/
theorem c7_counterexample :
    log_record ("app") 5 0
      (.record { feedback_id := some ("x"), feedbacks := [(("f"), Json.str ("y"))] }) 0 =
      .ok { events := [.feedback (log_feedback_attribute ("app") ("x")
              [(("f"), Json.str ("y"))] 1)],
            returned := none, shutdown := true } := by
  rfl

/-- Claim C7 (amended): the gate drops the call exactly when the draw
exceeds sampleRate (so with sampleRate 0 only the measure-zero draw 0.0
proceeds, and every draw in the unit interval proceeds at sampleRate 1),
and for a batch the single draw is taken once per call: any two admitted
draws give identical results for the whole batch. -/
theorem c7_sampling_gate :
    (∀ (app : String) (now : Nat) (draw : ℚ) (arg : LogArg) (rate : ℚ),
      0 ≤ rate → rate ≤ 1 → draw > rate →
      log_record app now draw arg rate = .ok {}) ∧
    (∀ (app : String) (now : Nat) (draw : ℚ) (arg : LogArg) (rate : ℚ),
      0 ≤ rate → rate ≤ 1 → draw ≤ rate →
      log_record app now draw arg rate =
        (match processArg app now arg with
          | .error e => .error e
          | .ok b => .ok (interpretBranch b))) ∧
    (∀ (app : String) (now : Nat) (draw : ℚ) (arg : LogArg),
      0 < draw → log_record app now draw arg 0 = .ok {}) ∧
    (∀ (app : String) (now : Nat) (draw : ℚ) (arg : LogArg),
      draw ≤ 1 → log_record app now draw arg 1 =
        (match processArg app now arg with
          | .error e => .error e
          | .ok b => .ok (interpretBranch b))) ∧
    (∀ (app : String) (now : Nat) (d1 d2 : ℚ) (args : List LogArg) (rate : ℚ),
      d1 ≤ rate → d2 ≤ rate →
      log_records app now d1 args rate = log_records app now d2 args rate) := by
  refine ⟨?_, ?_, ?_, ?_, ?_⟩
  · intro app now draw arg rate hr0 hr1 hgt
    simp only [log_record]
    rw [if_pos ⟨hr1, hr0⟩, if_pos hgt]
  · intro app now draw arg rate hr0 hr1 hle
    simp only [log_record]
    rw [if_pos ⟨hr1, hr0⟩, if_neg (not_lt.mpr hle)]
  · intro app now draw arg hgt
    simp only [log_record]
    rw [if_pos ⟨by norm_num, le_refl (0 : ℚ)⟩, if_pos hgt]
  · intro app now draw arg hle
    simp only [log_record]
    rw [if_pos ⟨le_refl (1 : ℚ), by norm_num⟩, if_neg (not_lt.mpr hle)]
  · intro app now d1 d2 args rate h1 h2
    simp only [log_records]
    by_cases hv : rate ≤ 1 ∧ 0 ≤ rate
    · rw [if_pos hv, if_pos hv, if_neg (not_lt.mpr h1), if_neg (not_lt.mpr h2)]
    · rw [if_neg hv, if_neg hv]

/-- Witness for C7 at a dropped draw above a concrete sample rate. -/
theorem c7_witness :
    log_record ("a") 1 (3 / 4) (.record {}) (1 / 2) = .ok {} :=
  c7_sampling_gate.1 ("a") 1 (3 / 4) (.record {}) (1 / 2)
    (by norm_num) (by norm_num) (by norm_num)

theorem log_recordsGo_ok {app : String} {now : Nat} {args : List LogArg}
    (h : ∀ x ∈ args, isOkE (processArg app now x) = true) :
    ∀ acc, log_recordsGo app now acc args =
      { events := acc ++ eventsOfArgs app now args, error := none, shutdown := false } := by
  induction args with
  | nil =>
    intro acc
    simp [log_recordsGo, eventsOfArgs]
  | cons a rest ih =>
    intro acc
    have ha := h a (List.mem_cons_self a rest)
    cases hp : processArg app now a with
    | error e => simp [isOkE, hp] at ha
    | ok b =>
      simp only [log_recordsGo, hp]
      rw [ih (fun x hx => h x (List.mem_cons.mpr (Or.inr hx))) _]
      simp [eventsOfArgs, eventsOfArg, hp, List.append_assoc]

theorem log_recordsGo_err {app : String} {now : Nat} {a : LogArg} {e : SparkError}
    (ha : processArg app now a = .error e) (pre : List LogArg) :
    ∀ (post : List LogArg) (acc : List Event),
      (∀ x ∈ pre, isOkE (processArg app now x) = true) →
      log_recordsGo app now acc (pre ++ a :: post) =
        { events := acc ++ eventsOfArgs app now pre, error := some e, shutdown := false } := by
  induction pre with
  | nil =>
    intro post acc _
    simp [log_recordsGo, ha, eventsOfArgs]
  | cons p rest ih =>
    intro post acc hpre
    have hp := hpre p (List.mem_cons_self p rest)
    cases hcase : processArg app now p with
    | error e2 => simp [isOkE, hcase] at hp
    | ok b =>
      have hstep : log_recordsGo app now acc ((p :: rest) ++ a :: post) =
          log_recordsGo app now (acc ++ (interpretBranch b).events) (rest ++ a :: post) := by
        simp only [List.cons_append, log_recordsGo, hcase]
        rfl
      rw [hstep, ih post _ (fun x hx => hpre x (List.mem_cons.mpr (Or.inr hx)))]
      simp [eventsOfArgs, eventsOfArg, hcase, List.append_assoc]

/-- Claim C8: logRecords runs the shared per-record pipeline in sequence
order; when every record succeeds the emitted events are the ordered
concatenation of each record's events, and a failing record propagates its
error immediately, keeping only the events of the records before it and
aborting the rest; the batch result carries no identifiers. -/
theorem c8_batch_pipeline (app : String) (now : Nat) (draw rate : ℚ)
    (args pre post : List LogArg) (a : LogArg) (e : SparkError)
    (hr0 : 0 ≤ rate) (hr1 : rate ≤ 1) (hd : draw ≤ rate) :
    ((∀ x ∈ args, isOkE (processArg app now x) = true) →
      log_records app now draw args rate =
        { events := eventsOfArgs app now args, error := none, shutdown := false }) ∧
    (args = pre ++ a :: post →
      (∀ x ∈ pre, isOkE (processArg app now x) = true) →
      processArg app now a = .error e →
      log_records app now draw args rate =
        { events := eventsOfArgs app now pre, error := some e, shutdown := false }) := by
  constructor
  · intro hok
    simp only [log_records]
    rw [if_pos ⟨hr1, hr0⟩, if_neg (not_lt.mpr hd), log_recordsGo_ok hok []]
    simp
  · intro hsplit hpre ha
    simp only [log_records]
    rw [if_pos ⟨hr1, hr0⟩, if_neg (not_lt.mpr hd), hsplit,
      log_recordsGo_err ha pre post [] hpre]
    simp

/-- Witness for C8: a batch whose second record is invalid emits only the
first record's event and propagates MissingIdentifierSource. -/
theorem c8_witness :
    log_records ("a") 1 0 [.record fbRec1, .record {}, .record fbRec2] 1 =
      { events := eventsOfArgs ("a") 1 [.record fbRec1],
        error := some .missingIdentifierSource, shutdown := false } := by
  have h := (c8_batch_pipeline ("a") 1 0 1
    [.record fbRec1, .record {}, .record fbRec2]
    [.record fbRec1] [.record fbRec2]
    (.record {}) .missingIdentifierSource
    (by norm_num) (by norm_num) (by norm_num)).2
  refine h rfl ?_ (by rfl)
  intro x hx
  have hx2 : x = LogArg.record fbRec1 := by simpa using hx
  rw [hx2]
  rfl

/-- Counterexample to C9 as stated: the documented default argument is the
dict as produced by calling log_record with no record; a dict exposes no
feedback_keys attribute, so the call dies on the attribute read at line 107
with AttributeError, not with the InvalidRecordType failure of line 186. -/
theorem c9_counterexample :
    log_record ("app") 5 0 (.nonRecord ("dict") none none) 1 =
      .error (.attributeError ("dict") ("feedback_keys")) := by
  rfl

/-- Claim C9 (amended): a non-Record argument never emits an event, and
fails synchronously as follows: AttributeError on the first of
feedback_keys and feedback_id it lacks; with both present, InvalidRecordType
when its class name differs from Record; an object of a non-dataclass class
that is named Record instead slips past the type check and proceeds
duck-typed, failing with ConflictingIdentifier when its two attributes
conflict and otherwise with AttributeError on the record.inputs read, so
InvalidRecordType is never raised for it. -/
theorem c9_non_record (app : String) (now : Nat) (draw : ℚ) (tn : String)
    (fkAttr : Option (List String)) (fidAttr : Option (Option String))
    (h1 : draw ≤ 1) :
    (fkAttr = none →
      log_record app now draw (.nonRecord tn fkAttr fidAttr) 1 =
        .error (.attributeError tn ("feedback_keys"))) ∧
    (∀ fk, fkAttr = some fk → fidAttr = none →
      log_record app now draw (.nonRecord tn fkAttr fidAttr) 1 =
        .error (.attributeError tn ("feedback_id"))) ∧
    (∀ fk fid, fkAttr = some fk → fidAttr = some fid → tn ≠ ("Record") →
      log_record app now draw (.nonRecord tn fkAttr fidAttr) 1 =
        .error (.invalidRecordType tn)) ∧
    (∀ fk fid, fkAttr = some fk → fidAttr = some fid → tn = ("Record") →
      log_record app now draw (.nonRecord tn fkAttr fidAttr) 1 =
        .error (if !fk.isEmpty && optStrTruthy fid then .conflictingIdentifier
          else .attributeError tn ("inputs"))) ∧
    isOkE (log_record app now draw (.nonRecord tn fkAttr fidAttr) 1) = false := by
  have hgate : log_record app now draw (.nonRecord tn fkAttr fidAttr) 1 =
      (match processArg app now (.nonRecord tn fkAttr fidAttr) with
        | .error e => .error e
        | .ok b => .ok (interpretBranch b)) := by
    simp only [log_record]
    rw [if_pos ⟨le_refl (1 : ℚ), by norm_num⟩, if_neg (not_lt.mpr h1)]
  refine ⟨?_, ?_, ?_, ?_, ?_⟩
  · intro hfk
    rw [hgate, hfk]
    rfl
  · intro fk hfk hfid
    rw [hgate, hfk, hfid]
    rfl
  · intro fk fid hfk hfid htn
    rw [hgate, hfk, hfid]
    simp [processArg, htn]
  · intro fk fid hfk hfid htn
    rw [hgate, hfk, hfid]
    by_cases hc : (!fk.isEmpty && optStrTruthy fid) = true <;>
      simp [processArg, htn, hc]
  · rw [hgate]
    cases fkAttr with
    | none => rfl
    | some fk =>
      cases fidAttr with
      | none => rfl
      | some fid =>
        by_cases htn : tn = ("Record")
        · by_cases hc : (!fk.isEmpty && optStrTruthy fid) = true <;>
            simp [processArg, isOkE, htn, hc]
        · simp [processArg, isOkE, htn]

/-- Witness for C9 at a non-Record named Duck and at an impostor class
named Record carrying only the two attributes. -/
theorem c9_witness :
    log_record ("a") 1 0 (.nonRecord ("Duck") (some []) (some none)) 1 =
      .error (.invalidRecordType ("Duck")) ∧
    log_record ("a") 1 0 (.nonRecord ("Record") (some []) (some none)) 1 =
      .error (.attributeError ("Record") ("inputs")) := by
  constructor
  · exact (c9_non_record ("a") 1 0 ("Duck") (some []) (some none)
      (by norm_num)).2.2.1 [] none rfl rfl (by decide)
  · have h := (c9_non_record ("a") 1 0 ("Record") (some []) (some none)
      (by norm_num)).2.2.2.1 [] none rfl rfl rfl
    simpa using h

theorem classifyRecord_feedback_only {app : String} {now : Nat} {r : Record}
    {b : BranchOutcome} (h : classifyRecord app now r = .ok b)
    (hfb : r.feedbacks.isEmpty = false)
    (hpred : (stripIgnored r.ignore_inputs r.inputs).isEmpty = true ∨
      r.outputs.isEmpty = true) :
    (interpretBranch b).shutdown = true ∧ (interpretBranch b).returned = none := by
  have hpredf : (!(stripIgnored r.ignore_inputs r.inputs).isEmpty
      && !r.outputs.isEmpty) = false := by
    rcases hpred with h1 | h1 <;> simp [h1]
  simp only [classifyRecord] at h
  split at h
  · cases h
  · split at h
    · cases h
    · simp only [hpredf, hfb, Bool.false_and, Bool.not_false, if_false, if_true,
        Bool.false_eq_true] at h
      simp only [Except.ok.injEq] at h
      rw [← h]
      exact ⟨rfl, rfl⟩

theorem interpretBranch_prediction {b : BranchOutcome} {pa : PredictionAttrs}
    (h : Event.prediction pa ∈ (interpretBranch b).events) :
    (interpretBranch b).shutdown = false ∧ (interpretBranch b).returned.isSome = true := by
  cases b with
  | predAndFeedback fid pa2 fa => exact ⟨rfl, rfl⟩
  | predOnly fid pa2 => exact ⟨rfl, rfl⟩
  | feedbackOnly fa =>
    exfalso
    simp [interpretBranch] at h

theorem log_recordsGo_shutdown (app : String) (now : Nat) :
    ∀ (args : List LogArg) (acc : List Event),
      (log_recordsGo app now acc args).shutdown = false := by
  intro args
  induction args with
  | nil => intro acc; rfl
  | cons a rest ih =>
    intro acc
    cases hp : processArg app now a with
    | error e => simp [log_recordsGo, hp]
    | ok b =>
      simp only [log_recordsGo, hp]
      exact ih _

/-- Claim C10: a successful log_record call on the feedback-only branch
shuts the provider down and returns nothing, a successful call that emits a
prediction event returns its identifier without shutting down, and
log_records never shuts the provider down. -/
theorem c10_provider_shutdown (app : String) (now : Nat) (r : Record) (o : LogOutcome) :
    (log_record app now 0 (.record r) 1 = .ok o →
      ((r.feedbacks.isEmpty = false →
        ((stripIgnored r.ignore_inputs r.inputs).isEmpty = true ∨
          r.outputs.isEmpty = true) →
        o.shutdown = true ∧ o.returned = none) ∧
       (∀ pa, Event.prediction pa ∈ o.events →
        o.shutdown = false ∧ o.returned.isSome = true))) ∧
    (∀ (draw rate : ℚ) (args : List LogArg),
      (log_records app now draw args rate).shutdown = false) := by
  constructor
  · intro hok
    simp only [log_record] at hok
    rw [if_pos ⟨le_refl (1 : ℚ), by norm_num⟩, if_neg (by norm_num : ¬ (0 : ℚ) > 1)] at hok
    cases hp : processArg app now (.record r) with
    | error e => rw [hp] at hok; cases hok
    | ok b =>
      rw [hp] at hok
      simp only [Except.ok.injEq] at hok
      rw [← hok]
      constructor
      · intro hfb hpred
        exact classifyRecord_feedback_only hp hfb hpred
      · intro pa hpa
        exact interpretBranch_prediction hpa
  · intro draw rate args
    simp only [log_records]
    by_cases hv : rate ≤ 1 ∧ 0 ≤ rate
    · rw [if_pos hv]
      by_cases hg : draw > rate
      · rw [if_pos hg]
      · rw [if_neg hg]
        exact log_recordsGo_shutdown app now args []
    · rw [if_neg hv]

/-- Witness for C10 at a concrete feedback-only record and an empty batch. -/
theorem c10_witness :
    ({ events := [.feedback (log_feedback_attribute ("a") ("x")
          [(("f"), Json.str ("y"))] 5)],
       returned := none, shutdown := true } : LogOutcome).shutdown = true ∧
    (log_records ("a") 1 0 [] 1).shutdown = false := by
  have h := (c10_provider_shutdown ("a") 1
    { feedback_id := some ("x"), feedbacks := [(("f"), Json.str ("y"))], timestamp := 5 }
    { events := [.feedback (log_feedback_attribute ("a") ("x")
        [(("f"), Json.str ("y"))] 5)],
      returned := none, shutdown := true })
  exact ⟨((h.1 (by rfl)).1 (by rfl) (Or.inl rfl)).1, h.2 0 1 []⟩

end Spark
